import Mathlib

/-!
Shallow embedding of `Telegram/SourceFiles/mtproto/concurrent_sender.cpp`
(`MTP::ConcurrentSender` and its nested `RPCDoneHandler`, `RPCFailHandler`
and `RequestBuilder` classes).

Modelling decisions:
* `mtpRequestId` is a machine integer used only as a key; it is embedded as
  `Nat` (zero is the reserved "no id" sentinel).
* The dispatcher's `_requests` field (a `base::flat_map<mtpRequestId,
  Handlers>`) is embedded as an association list with the std-map operation
  contracts (`emplace`, `take`, `erase`) that `base::flat_map` implements.
* Caller handlers (`Handlers`, the pair of `done`/`fail` callbacks) are an
  abstract type `H`; an invocation of a handler is recorded as an `Event`
  rather than executed, and the possibility that the `done` callback throws
  an `Exception` during response parsing is a parameter
  `doneRes : H → RequestId → Bytes → Option String` returning the exception
  text when it throws.
* Calls scheduled onto the owner thread through `with_instance` (that is,
  `instance->cancel(...)` and `instance->sendSerialized(...)`) are recorded
  as `Event`s in the order the scheduled closure would perform them.
* `base::weak_ptr<ConcurrentSender>` inside the two RPC handlers is embedded
  as `Option (ConcurrentSender H)`: `none` is a weak pointer whose target
  was destroyed, `some st` a live dispatcher in state `st`.
-/

namespace MTP

/-- `mtpRequestId`: process-wide unique request identifier; `0` is reserved. -/
abbrev RequestId := Nat

/-- Raw response payload bytes (`bytes::const_span` / `bytes::vector`). -/
abbrev Bytes := List Nat

/-- `RPCError`: structured error value with a code/type and a description. -/
structure RPCError where
  errorType : String
  description : String
  deriving DecidableEq, Repr

/-- Modelled from the spec: `internal::rpcClientError` (declared in
`mtproto/rpc_sender.h`, which is not under `src/`) builds the synthetic
`ErrorValue` from an error code and a details string. -/
def rpcClientError (errorType : String) (description : String) : RPCError :=
  ⟨errorType, description⟩

/-- `FailSkipPolicy` as used in the source (`FailSkipPolicy::Simple`,
`FailSkipPolicy::HandleFlood`); the member default at
concurrent_sender.cpp:47 is `Simple`. -/
inductive FailSkipPolicy where
  | Simple
  | HandleFlood
  deriving DecidableEq, Repr

/-- Observable effects of the dispatcher: caller-handler invocations run
through the runner, and engine calls scheduled through `with_instance`. -/
inductive Event (H : Type) where
  | invokeDone (handlers : H) (requestId : RequestId) (result : Bytes)
  | invokeFail (handlers : H) (requestId : RequestId) (error : RPCError)
  | engineCancel (requestId : RequestId)
  | engineSend (requestId : RequestId) (request : Bytes) (dcId : Int)
      (msCanWait : Nat) (afterRequestId : RequestId)
  deriving DecidableEq, Repr

/-- Whether an event is an invocation of a caller handler for `id`. -/
def Event.isHandlerFor {H : Type} (id : RequestId) : Event H → Bool
  | .invokeDone _ requestId _ => requestId == id
  | .invokeFail _ requestId _ => requestId == id
  | _ => false

/-- Whether an event is an invocation of a `done` handler. -/
def Event.isInvokeDone {H : Type} : Event H → Bool
  | .invokeDone _ _ _ => true
  | _ => false

/-- Lookup in the pending-request mapping: the value stored under a key. -/
def mapLookup {H : Type} : List (RequestId × H) → RequestId → Option H
  | [], _ => none
  | (k, v) :: rest, id => if k = id then some v else mapLookup rest id

/-- Modelled from the spec: `base::flat_map::emplace` (in `base/flat_map.h`,
not under `src/`) follows the std-map `emplace` contract — it inserts only
when the key is absent and otherwise leaves the mapping unchanged, so the
mapping holds at most one entry per id. -/
def mapEmplace {H : Type} (m : List (RequestId × H)) (id : RequestId)
    (handlers : H) : List (RequestId × H) :=
  match mapLookup m id with
  | some _ => m
  | none => (id, handlers) :: m

/-- Modelled from the spec: `base::flat_map::erase(key)` (not under `src/`)
removes the entry stored under the key, if any. -/
def mapErase {H : Type} : List (RequestId × H) → RequestId → List (RequestId × H)
  | [], _ => []
  | (k, v) :: rest, id =>
      if k = id then mapErase rest id else (k, v) :: mapErase rest id

/-- Modelled from the spec: `base::flat_map::take(key)` (not under `src/`)
removes and returns the entry stored under the key if present, and leaves
the mapping untouched otherwise. -/
def mapTake {H : Type} (m : List (RequestId × H)) (id : RequestId) :
    Option H × List (RequestId × H) :=
  match mapLookup m id with
  | some handlers => (some handlers, mapErase m id)
  | none => (none, m)

/-- Dispatcher state: the `_requests` mapping of `MTP::ConcurrentSender`
(the runner and engine are external and show up only as `Event`s). -/
structure ConcurrentSender (H : Type) where
  requests : List (RequestId × H)
  deriving DecidableEq, Repr

variable {H : Type}

/-- `ConcurrentSender::senderRequestRegister` (concurrent_sender.cpp:172-176):
`_requests.emplace(requestId, std::move(handlers))`. -/
def senderRequestRegister (st : ConcurrentSender H) (requestId : RequestId)
    (handlers : H) : ConcurrentSender H :=
  ⟨mapEmplace st.requests requestId handlers⟩

/-- `ConcurrentSender::senderRequestDone` (concurrent_sender.cpp:178-190):
takes the handlers for `requestId` if present, invokes `done`; when `done`
throws an `Exception` (text `w`, as given by `doneRes`), invokes `fail` with
the synthetic `RESPONSE_PARSE_FAILED` error instead. -/
def senderRequestDone (doneRes : H → RequestId → Bytes → Option String)
    (st : ConcurrentSender H) (requestId : RequestId) (result : Bytes) :
    ConcurrentSender H × List (Event H) :=
  match mapTake st.requests requestId with
  | (some handlers, rest) =>
      match doneRes handlers requestId result with
      | none => (⟨rest⟩, [Event.invokeDone handlers requestId result])
      | some w =>
          (⟨rest⟩,
            [Event.invokeDone handlers requestId result,
             Event.invokeFail handlers requestId
               (rpcClientError "RESPONSE_PARSE_FAILED"
                 (String.append "exception text: " w))])
  | (none, _) => (st, [])

/-- `ConcurrentSender::senderRequestFail` (concurrent_sender.cpp:192-198):
takes the handlers for `requestId` if present and invokes `fail`. -/
def senderRequestFail (st : ConcurrentSender H) (requestId : RequestId)
    (error : RPCError) : ConcurrentSender H × List (Event H) :=
  match mapTake st.requests requestId with
  | (some handlers, rest) => (⟨rest⟩, [Event.invokeFail handlers requestId error])
  | (none, _) => (st, [])

/-- `ConcurrentSender::senderRequestDetach` (concurrent_sender.cpp:219-221):
`_requests.erase(requestId)`. -/
def senderRequestDetach (st : ConcurrentSender H) (requestId : RequestId) :
    ConcurrentSender H :=
  ⟨mapErase st.requests requestId⟩

/-- `ConcurrentSender::senderRequestCancel` (concurrent_sender.cpp:200-205):
detach locally, then schedule `instance->cancel(requestId)` onto the owner
thread. -/
def senderRequestCancel (st : ConcurrentSender H) (requestId : RequestId) :
    ConcurrentSender H × List (Event H) :=
  (senderRequestDetach st requestId, [Event.engineCancel requestId])

/-- `ConcurrentSender::senderRequestCancelAll` (concurrent_sender.cpp:207-217):
`auto list = std::vector<mtpRequestId>(_requests.size());` constructs a vector
already holding `size` zero-initialized elements; the loop then `push_back`s
every pending id from `base::take(_requests)` (which empties the mapping), and
the scheduled closure calls `instance->cancel` on every element of `list`. -/
def senderRequestCancelAll (st : ConcurrentSender H) :
    ConcurrentSender H × List (Event H) :=
  let list := List.replicate st.requests.length (0 : RequestId)
      ++ st.requests.map Prod.fst
  (⟨[]⟩, list.map Event.engineCancel)

/-- `ConcurrentSender::~ConcurrentSender` (concurrent_sender.cpp:168-170):
the destructor runs `senderRequestCancelAll()`; afterwards the dispatcher no
longer exists, so only the emitted engine calls remain observable. -/
def destructConcurrentSender (st : ConcurrentSender H) : List (Event H) :=
  (senderRequestCancelAll st).2

/-- The continuation that `RPCDoneHandler::operator()`
(concurrent_sender.cpp:58-70) hands to the runner: it captures the copied
response bytes and the weak dispatcher pointer; when it later runs it calls
`senderRequestDone` only if the weak pointer still yields a live dispatcher,
and does nothing otherwise. -/
def rpcDoneContinuation (doneRes : H → RequestId → Bytes → Option String)
    (weak : Option (ConcurrentSender H)) (requestId : RequestId)
    (moved : Bytes) : Option (ConcurrentSender H) × List (Event H) :=
  match weak with
  | some strong =>
      let r := senderRequestDone doneRes strong requestId moved
      (some r.1, r.2)
  | none => (none, [])

/-- The continuation that `RPCFailHandler::operator()`
(concurrent_sender.cpp:93-97) hands to the runner: calls
`senderRequestFail` only if the weak pointer still yields a live
dispatcher. -/
def rpcFailContinuation (weak : Option (ConcurrentSender H))
    (requestId : RequestId) (error : RPCError) :
    Option (ConcurrentSender H) × List (Event H) :=
  match weak with
  | some strong =>
      let r := senderRequestFail strong requestId error
      (some r.1, r.2)
  | none => (none, [])

/-- `RPCFailHandler::operator()` (concurrent_sender.cpp:81-99).  The engine's
classification predicates `MTP::isDefaultHandledError` and
`MTP::isFloodError` are external collaborators, so their values on the
delivered error enter as the booleans `isDefaultHandled` and `isFlood`.
Returns the `bool` handed back to the engine (whether the error was
consumed) together with the `(requestId, error)` continuation scheduled
via the runner, if any. -/
def rpcFailHandlerCall (skipPolicy : FailSkipPolicy)
    (isDefaultHandled : Bool) (isFlood : Bool) (requestId : RequestId)
    (error : RPCError) : Bool × Option (RequestId × RPCError) :=
  if skipPolicy = FailSkipPolicy.Simple ∧ isDefaultHandled then
    (false, none)
  else if skipPolicy = FailSkipPolicy.HandleFlood
      ∧ isDefaultHandled ∧ isFlood = false then
    (false, none)
  else
    (true, some (requestId, error))

/-- Runs whatever continuation `rpcFailHandlerCall` scheduled against the
weak dispatcher pointer (nothing at all when no continuation was
scheduled). -/
def applyFailResult (weak : Option (ConcurrentSender H))
    (r : Bool × Option (RequestId × RPCError)) :
    Option (ConcurrentSender H) × List (Event H) :=
  match r.2 with
  | some (requestId, error) => rpcFailContinuation weak requestId error
  | none => (weak, [])

/-- Modelled from the spec: `GetNextRequestId` (declared outside `src/`) is
the process-wide request-id generator, a single atomic fetch-and-increment
counter whose ids are strictly increasing, never reused and never zero.
Given the current counter value it yields the fresh id and the new counter
value. -/
def GetNextRequestId (counter : Nat) : RequestId × Nat :=
  (counter + 1, counter + 1)

/-- `ConcurrentSender::RequestBuilder` accumulator state
(concurrent_sender.cpp:111-134): serialized payload moved in at
construction, then `setToDC`, `setCanWait`, `setFailSkipPolicy`, `setAfter`
mutate the corresponding fields, and the handlers are attached before
`send()`. -/
structure RequestBuilder (H : Type) where
  serialized : Bytes
  handlers : H
  dcId : Int
  canWait : Nat
  failSkipPolicy : FailSkipPolicy
  afterRequestId : RequestId
  deriving DecidableEq, Repr

/-- `RequestBuilder::setToDC` (concurrent_sender.cpp:118-120). -/
def RequestBuilder.setToDC (b : RequestBuilder H) (dcId : Int) :
    RequestBuilder H :=
  { b with dcId := dcId }

/-- `RequestBuilder::setCanWait` (concurrent_sender.cpp:122-124). -/
def RequestBuilder.setCanWait (b : RequestBuilder H) (ms : Nat) :
    RequestBuilder H :=
  { b with canWait := ms }

/-- `RequestBuilder::setFailSkipPolicy` (concurrent_sender.cpp:126-129). -/
def RequestBuilder.setFailSkipPolicy (b : RequestBuilder H)
    (policy : FailSkipPolicy) : RequestBuilder H :=
  { b with failSkipPolicy := policy }

/-- `RequestBuilder::setAfter` (concurrent_sender.cpp:131-134). -/
def RequestBuilder.setAfter (b : RequestBuilder H) (requestId : RequestId) :
    RequestBuilder H :=
  { b with afterRequestId := requestId }

/-- Result of `RequestBuilder::send`: the id returned to the caller, the new
generator counter, the dispatcher state as it is the moment `send` returns,
and the engine call scheduled onto the owner thread (still unexecuted data
at that moment). -/
structure SendOutcome (H : Type) where
  requestId : RequestId
  counter : Nat
  sender : ConcurrentSender H
  scheduled : List (Event H)
  deriving DecidableEq, Repr

/-- `RequestBuilder::send` (concurrent_sender.cpp:136-162): allocates a
fresh id with `GetNextRequestId()`, synchronously registers the handlers via
`senderRequestRegister`, then schedules (through `with_instance`, onto the
owner thread) the closure performing `instance->sendSerialized(...)`, and
returns the id; the scheduled closure has not run when `send` returns. -/
def RequestBuilder.send (b : RequestBuilder H) (counter : Nat)
    (st : ConcurrentSender H) : SendOutcome H :=
  let fresh := GetNextRequestId counter
  let requestId := fresh.1
  let registered := senderRequestRegister st requestId b.handlers
  ⟨requestId, fresh.2, registered,
    [Event.engineSend requestId b.serialized b.dcId b.canWait
      b.afterRequestId]⟩

/-- One dispatcher operation, for reasoning about arbitrary interleavings of
the mapping-mutating entry points of `ConcurrentSender`. -/
inductive SenderOp (H : Type) where
  | register (requestId : RequestId) (handlers : H)
  | done (requestId : RequestId) (result : Bytes)
  | fail (requestId : RequestId) (error : RPCError)
  | cancel (requestId : RequestId)
  | cancelAll
  | detach (requestId : RequestId)
  deriving DecidableEq, Repr

/-- Whether the operation is a `register` of the given id. -/
def SenderOp.registersId (id : RequestId) : SenderOp H → Bool
  | .register requestId _ => requestId == id
  | _ => false

/-- Dispatch one `SenderOp` to the corresponding `ConcurrentSender` entry
point, returning the new state and the events the operation emitted. -/
def stepOp (doneRes : H → RequestId → Bytes → Option String)
    (st : ConcurrentSender H) : SenderOp H → ConcurrentSender H × List (Event H)
  | .register requestId handlers =>
      (senderRequestRegister st requestId handlers, [])
  | .done requestId result => senderRequestDone doneRes st requestId result
  | .fail requestId error => senderRequestFail st requestId error
  | .cancel requestId => senderRequestCancel st requestId
  | .cancelAll => senderRequestCancelAll st
  | .detach requestId => (senderRequestDetach st requestId, [])

/-- Run a sequence of dispatcher operations, collecting the events each
operation emitted. -/
def runOps (doneRes : H → RequestId → Bytes → Option String)
    (st : ConcurrentSender H) :
    List (SenderOp H) → ConcurrentSender H × List (List (Event H))
  | [] => (st, [])
  | op :: rest =>
      let r := stepOp doneRes st op
      let rr := runOps doneRes r.1 rest
      (rr.1, r.2 :: rr.2)

/-- Concrete handler-pair semantics whose `done` callback never throws,
used to evaluate the development on concrete inputs. -/
def noThrow : Nat → RequestId → Bytes → Option String := fun _ _ _ => none

/-- Concrete handler-pair semantics whose `done` callback always throws an
`Exception` with text "bad length", used to evaluate the parse-failure
path. -/
def alwaysThrow : Nat → RequestId → Bytes → Option String :=
  fun _ _ _ => some "bad length"

/-- A concrete dispatcher with one pending request, id 5 with handlers 9. -/
def sampleOne : ConcurrentSender Nat := ⟨[(5, 9)]⟩

/-- A concrete dispatcher with two pending requests. -/
def sampleTwo : ConcurrentSender Nat := ⟨[(1, 7), (2, 8)]⟩

/-- A concrete operation sequence in which every terminal operation races
for the same id 5, used to evaluate the at-most-once property. -/
def sampleOps : List (SenderOp Nat) :=
  [SenderOp.done 5 [1], SenderOp.fail 5 ⟨"E", "late"⟩,
   SenderOp.cancel 5, SenderOp.detach 5, SenderOp.cancelAll]

theorem mapLookup_erase_self (m : List (RequestId × H)) (id : RequestId) :
    mapLookup (mapErase m id) id = none := by
  induction m with
  | nil => rfl
  | cons p rest ih =>
      obtain ⟨k, v⟩ := p
      by_cases hk : k = id
      · simpa [mapErase, hk] using ih
      · simpa [mapErase, mapLookup, hk] using ih

theorem mapLookup_erase_ne (m : List (RequestId × H)) (id k : RequestId)
    (hk : k ≠ id) : mapLookup (mapErase m id) k = mapLookup m k := by
  induction m with
  | nil => rfl
  | cons p rest ih =>
      obtain ⟨a, v⟩ := p
      by_cases ha : a = id
      · subst ha
        have hak : a ≠ k := fun h => hk h.symm
        simp [mapErase, mapLookup, hak, ih]
      · by_cases hak : a = k
        · subst hak
          simp [mapErase, ha, mapLookup]
        · simp [mapErase, ha, mapLookup, hak, ih]

theorem mapErase_of_lookup_none (m : List (RequestId × H)) (id : RequestId)
    (h : mapLookup m id = none) : mapErase m id = m := by
  induction m with
  | nil => rfl
  | cons p rest ih =>
      obtain ⟨a, v⟩ := p
      by_cases ha : a = id
      · simp [mapLookup, ha] at h
      · simp [mapLookup, ha] at h
        simp [mapErase, ha, ih h]

theorem mapLookup_emplace_ne (m : List (RequestId × H)) (id k : RequestId)
    (v : H) (hk : k ≠ id) :
    mapLookup (mapEmplace m id v) k = mapLookup m k := by
  unfold mapEmplace
  cases hm : mapLookup m id with
  | some w => rfl
  | none =>
      have hik : id ≠ k := Ne.symm hk
      simp [mapLookup, hik]

theorem mapLookup_emplace_self_of_none (m : List (RequestId × H))
    (id : RequestId) (v : H) (h : mapLookup m id = none) :
    mapLookup (mapEmplace m id v) id = some v := by
  simp [mapEmplace, h, mapLookup]

theorem mapEmplace_of_lookup_some (m : List (RequestId × H))
    (id : RequestId) (v w : H) (h : mapLookup m id = some w) :
    mapEmplace m id v = m := by
  simp [mapEmplace, h]

theorem cancelAll_events_handlerFree (st : ConcurrentSender H)
    (id : RequestId) :
    ((senderRequestCancelAll st).2.any (Event.isHandlerFor id)) = false := by
  simp only [senderRequestCancelAll, List.any_eq_false]
  intro e he
  simp only [List.mem_map] at he
  obtain ⟨r, _, rfl⟩ := he
  simp [Event.isHandlerFor]

theorem stepOp_absent (doneRes : H → RequestId → Bytes → Option String)
    (st : ConcurrentSender H) (op : SenderOp H) (id : RequestId)
    (hreg : op.registersId id = false)
    (habs : mapLookup st.requests id = none) :
    mapLookup (stepOp doneRes st op).1.requests id = none ∧
    ((stepOp doneRes st op).2.any (Event.isHandlerFor id)) = false := by
  cases op with
  | register rid handlers =>
      have hne : rid ≠ id := by simpa [SenderOp.registersId] using hreg
      refine ⟨?_, by simp [stepOp]⟩
      simpa [stepOp, senderRequestRegister] using
        (mapLookup_emplace_ne st.requests rid id handlers
          (Ne.symm hne)).trans habs
  | done rid result =>
      by_cases hrid : rid = id
      · subst hrid
        simp [stepOp, senderRequestDone, mapTake, habs]
      · cases hl : mapLookup st.requests rid with
        | none => simp [stepOp, senderRequestDone, mapTake, hl, habs]
        | some handlers =>
            have herase := (mapLookup_erase_ne st.requests rid id
              (Ne.symm hrid)).trans habs
            cases hd : doneRes handlers rid result with
            | none =>
                simp [stepOp, senderRequestDone, mapTake, hl, hd,
                  Event.isHandlerFor, hrid, herase]
            | some w =>
                simp [stepOp, senderRequestDone, mapTake, hl, hd,
                  Event.isHandlerFor, hrid, herase]
  | fail rid error =>
      by_cases hrid : rid = id
      · subst hrid
        simp [stepOp, senderRequestFail, mapTake, habs]
      · cases hl : mapLookup st.requests rid with
        | none => simp [stepOp, senderRequestFail, mapTake, hl, habs]
        | some handlers =>
            have herase := (mapLookup_erase_ne st.requests rid id
              (Ne.symm hrid)).trans habs
            simp [stepOp, senderRequestFail, mapTake, hl,
              Event.isHandlerFor, hrid, herase]
  | cancel rid =>
      by_cases hrid : rid = id
      · subst hrid
        simp [stepOp, senderRequestCancel, senderRequestDetach,
          Event.isHandlerFor, mapLookup_erase_self]
      · have herase := (mapLookup_erase_ne st.requests rid id
          (Ne.symm hrid)).trans habs
        simp [stepOp, senderRequestCancel, senderRequestDetach,
          Event.isHandlerFor, herase]
  | cancelAll =>
      exact ⟨by simp [stepOp, senderRequestCancelAll, mapLookup],
        cancelAll_events_handlerFree st id⟩
  | detach rid =>
      by_cases hrid : rid = id
      · subst hrid
        simp [stepOp, senderRequestDetach, mapLookup_erase_self]
      · have herase := (mapLookup_erase_ne st.requests rid id
          (Ne.symm hrid)).trans habs
        simp [stepOp, senderRequestDetach, herase]

theorem stepOp_handler_removes (doneRes : H → RequestId → Bytes → Option String)
    (st : ConcurrentSender H) (op : SenderOp H) (id : RequestId)
    (hev : ((stepOp doneRes st op).2.any (Event.isHandlerFor id)) = true) :
    mapLookup (stepOp doneRes st op).1.requests id = none := by
  cases op with
  | register rid handlers => simp [stepOp] at hev
  | done rid result =>
      cases hl : mapLookup st.requests rid with
      | none => simp [stepOp, senderRequestDone, mapTake, hl] at hev
      | some handlers =>
          have hrid : rid = id := by
            cases hd : doneRes handlers rid result <;>
              simpa [stepOp, senderRequestDone, mapTake, hl, hd,
                Event.isHandlerFor] using hev
          subst hrid
          cases hd : doneRes handlers rid result <;>
            simp [stepOp, senderRequestDone, mapTake, hl, hd,
              mapLookup_erase_self]
  | fail rid error =>
      cases hl : mapLookup st.requests rid with
      | none => simp [stepOp, senderRequestFail, mapTake, hl] at hev
      | some handlers =>
          have hrid : rid = id := by
            simpa [stepOp, senderRequestFail, mapTake, hl,
              Event.isHandlerFor] using hev
          subst hrid
          simp [stepOp, senderRequestFail, mapTake, hl, mapLookup_erase_self]
  | cancel rid =>
      simp [stepOp, senderRequestCancel, senderRequestDetach,
        Event.isHandlerFor] at hev
  | cancelAll =>
      rw [show (stepOp doneRes st SenderOp.cancelAll).2
          = (senderRequestCancelAll st).2 from rfl,
        cancelAll_events_handlerFree st id] at hev
      exact absurd hev (by simp)
  | detach rid => simp [stepOp] at hev

theorem runOps_absent (doneRes : H → RequestId → Bytes → Option String)
    (id : RequestId) (ops : List (SenderOp H)) :
    ∀ st : ConcurrentSender H,
    ops.all (fun op => !(op.registersId id)) = true →
    mapLookup st.requests id = none →
    ((runOps doneRes st ops).2.countP
        (fun evs => evs.any (Event.isHandlerFor id))) = 0 := by
  induction ops with
  | nil => intro st _ _; rfl
  | cons op rest ih =>
      intro st hall habs
      have h1 : (!(op.registersId id)) = true
          ∧ rest.all (fun op => !(op.registersId id)) = true := by
        simpa [List.all_cons, Bool.and_eq_true] using hall
      have hop : op.registersId id = false := by simpa using h1.1
      obtain ⟨habs', hev⟩ := stepOp_absent doneRes st op id hop habs
      have htail := ih (stepOp doneRes st op).1 h1.2 habs'
      simp [runOps, List.countP_cons, hev, htail]

theorem runOps_countP_le_one (doneRes : H → RequestId → Bytes → Option String)
    (id : RequestId) (ops : List (SenderOp H)) :
    ∀ st : ConcurrentSender H,
    ops.all (fun op => !(op.registersId id)) = true →
    ((runOps doneRes st ops).2.countP
        (fun evs => evs.any (Event.isHandlerFor id))) ≤ 1 := by
  induction ops with
  | nil => intro st _; simp [runOps]
  | cons op rest ih =>
      intro st hall
      have h1 : (!(op.registersId id)) = true
          ∧ rest.all (fun op => !(op.registersId id)) = true := by
        simpa [List.all_cons, Bool.and_eq_true] using hall
      by_cases hev : ((stepOp doneRes st op).2.any (Event.isHandlerFor id)) = true
      · have habs' := stepOp_handler_removes doneRes st op id hev
        have hz := runOps_absent doneRes id rest (stepOp doneRes st op).1
          h1.2 habs'
        simp [runOps, List.countP_cons, hev, hz]
      · have hevf : ((stepOp doneRes st op).2.any (Event.isHandlerFor id))
            = false := by
          simpa using hev
        have htail := ih (stepOp doneRes st op).1 h1.2
        simpa [runOps, List.countP_cons, hevf] using htail

theorem mapLookup_none_of_ne (m : List (RequestId × H)) (id : RequestId)
    (h : ∀ p ∈ m, p.1 ≠ id) : mapLookup m id = none := by
  induction m with
  | nil => rfl
  | cons p rest ih =>
      obtain ⟨k, v⟩ := p
      have hk : k ≠ id := h (k, v) (by simp)
      simp only [mapLookup, hk, if_false]
      exact ih (fun q hq => h q (by simp [hq]))

/-- C6: if `id` is registered, `senderRequestDone` invokes that entry's
`done` handler exactly once with exactly `(id, result)` and removes `id`
from the mapping; if `id` is absent, both `senderRequestDone` and
`senderRequestFail` are no-ops: no handler is invoked, no event is emitted,
and the state is unchanged. -/
theorem complete_invokes_once_and_absent_noop
    (doneRes : H → RequestId → Bytes → Option String)
    (st : ConcurrentSender H) (id : RequestId) (result : Bytes)
    (error : RPCError) :
    (∀ handlers, mapLookup st.requests id = some handlers →
      ((senderRequestDone doneRes st id result).2.filter Event.isInvokeDone
          = [Event.invokeDone handlers id result]
        ∧ mapLookup (senderRequestDone doneRes st id result).1.requests id
          = none))
    ∧ (mapLookup st.requests id = none →
        senderRequestDone doneRes st id result = (st, [])
        ∧ senderRequestFail st id error = (st, [])) := by
  constructor
  · intro handlers hl
    cases hd : doneRes handlers id result with
    | none =>
        exact ⟨by simp [senderRequestDone, mapTake, hl, hd,
            Event.isInvokeDone, List.filter],
          by simp [senderRequestDone, mapTake, hl, hd, mapLookup_erase_self]⟩
    | some w =>
        exact ⟨by simp [senderRequestDone, mapTake, hl, hd,
            Event.isInvokeDone, List.filter],
          by simp [senderRequestDone, mapTake, hl, hd, mapLookup_erase_self]⟩
  · intro hl
    exact ⟨by simp [senderRequestDone, mapTake, hl],
      by simp [senderRequestFail, mapTake, hl]⟩

theorem complete_invokes_once_and_absent_noop_witness :
    mapLookup sampleOne.requests 5 = some 9
    ∧ ((senderRequestDone noThrow sampleOne 5 [3, 4]).2.filter
          Event.isInvokeDone = [Event.invokeDone 9 5 [3, 4]]
        ∧ mapLookup (senderRequestDone noThrow sampleOne 5 [3, 4]).1.requests 5
          = none) :=
  ⟨rfl,
    (complete_invokes_once_and_absent_noop noThrow sampleOne 5 [3, 4]
      ⟨"", ""⟩).1 9 rfl⟩

/-- C8: `senderRequestCancel id` emits exactly one `Engine.cancel(id)`
notification and no handler invocation, removes the id's entry, leaves every
other entry unchanged, and is a local no-op when the id is not registered. -/
theorem cancel_detaches_and_notifies (st : ConcurrentSender H)
    (id k : RequestId) (hk : k ≠ id) :
    (senderRequestCancel st id).2 = [Event.engineCancel id]
    ∧ mapLookup (senderRequestCancel st id).1.requests id = none
    ∧ mapLookup (senderRequestCancel st id).1.requests k
        = mapLookup st.requests k
    ∧ (mapLookup st.requests id = none →
        (senderRequestCancel st id).1 = st) := by
  refine ⟨rfl, ?_, ?_, ?_⟩
  · simpa [senderRequestCancel, senderRequestDetach] using
      mapLookup_erase_self st.requests id
  · simpa [senderRequestCancel, senderRequestDetach] using
      mapLookup_erase_ne st.requests id k hk
  · intro habs
    simp [senderRequestCancel, senderRequestDetach,
      mapErase_of_lookup_none st.requests id habs]

theorem cancel_detaches_and_notifies_witness :
    (2 : RequestId) ≠ 1
    ∧ ((senderRequestCancel sampleTwo 1).2 = [Event.engineCancel 1]
      ∧ mapLookup (senderRequestCancel sampleTwo 1).1.requests 1 = none
      ∧ mapLookup (senderRequestCancel sampleTwo 1).1.requests 2
          = mapLookup sampleTwo.requests 2
      ∧ (mapLookup sampleTwo.requests 1 = none →
          (senderRequestCancel sampleTwo 1).1 = sampleTwo)) :=
  ⟨by decide, cancel_detaches_and_notifies sampleTwo 1 2 (by decide)⟩

/-- C10: registering an id already present in the mapping is a silent no-op:
the state (hence the originally registered handlers) is unchanged, the new
handlers are discarded, and the id still maps to the original handlers. -/
theorem register_existing_id_noop (st : ConcurrentSender H)
    (id : RequestId) (hOld hNew : H)
    (hl : mapLookup st.requests id = some hOld) :
    senderRequestRegister st id hNew = st
    ∧ mapLookup (senderRequestRegister st id hNew).requests id = some hOld := by
  have h := mapEmplace_of_lookup_some st.requests id hNew hOld hl
  exact ⟨by simp [senderRequestRegister, h],
    by simp [senderRequestRegister, h, hl]⟩

theorem register_existing_id_noop_witness :
    mapLookup sampleOne.requests 5 = some 9
    ∧ (senderRequestRegister sampleOne 5 1000 = sampleOne
      ∧ mapLookup (senderRequestRegister sampleOne 5 1000).requests 5
        = some 9) :=
  ⟨rfl, register_existing_id_noop sampleOne 5 9 1000 rfl⟩

/-- C4: under `FailSkipPolicy::HandleFlood`, an error that is both
generically handled and a flood error is not swallowed: the adapter returns
`true` (consumed) to the engine and schedules the continuation, which on a
live dispatcher invokes the caller's `fail` handler with `(id, error)`. -/
theorem handleFlood_escalates_flood_error (st : ConcurrentSender H)
    (id : RequestId) (handlers : H) (error : RPCError)
    (hl : mapLookup st.requests id = some handlers) :
    rpcFailHandlerCall FailSkipPolicy.HandleFlood true true id error
        = (true, some (id, error))
    ∧ (applyFailResult (some st)
        (rpcFailHandlerCall FailSkipPolicy.HandleFlood true true id error)).2
        = [Event.invokeFail handlers id error] := by
  refine ⟨rfl, ?_⟩
  simp [applyFailResult, rpcFailHandlerCall, rpcFailContinuation,
    senderRequestFail, mapTake, hl]

theorem handleFlood_escalates_flood_error_witness :
    mapLookup sampleOne.requests 5 = some 9
    ∧ (rpcFailHandlerCall FailSkipPolicy.HandleFlood true true 5
          ⟨"FLOOD_WAIT_42", "too fast"⟩ = (true, some (5,
            ⟨"FLOOD_WAIT_42", "too fast"⟩))
      ∧ (applyFailResult (some sampleOne)
          (rpcFailHandlerCall FailSkipPolicy.HandleFlood true true 5
            ⟨"FLOOD_WAIT_42", "too fast"⟩)).2
          = [Event.invokeFail 9 5 ⟨"FLOOD_WAIT_42", "too fast"⟩]) :=
  ⟨rfl, handleFlood_escalates_flood_error sampleOne 5 9
    ⟨"FLOOD_WAIT_42", "too fast"⟩ rfl⟩

/-- C5: under the default policy (`FailSkipPolicy::Simple`, the member
default of `RPCFailHandler`), every generically-handled error — flood or
not — is swallowed: the adapter returns `false` (not consumed) to the
engine and schedules no continuation, so no `fail` handler is ever invoked
and the dispatcher state is untouched. -/
theorem simple_swallows_default_handled (st : ConcurrentSender H)
    (id : RequestId) (error : RPCError) (isFlood : Bool) :
    rpcFailHandlerCall FailSkipPolicy.Simple true isFlood id error
        = (false, none)
    ∧ applyFailResult (some st)
        (rpcFailHandlerCall FailSkipPolicy.Simple true isFlood id error)
        = (some st, []) := by
  constructor <;> simp [rpcFailHandlerCall, applyFailResult]

/-- C3: when the `done` callback of a registered id throws during response
parsing, `senderRequestDone` invokes the same pair's `fail` callback with
the synthetic `RESPONSE_PARSE_FAILED` error carrying the exception text,
and the id is removed — the malformed payload is neither dropped nor
propagated out of the dispatcher. -/
theorem parse_failure_redirected_to_fail
    (doneRes : H → RequestId → Bytes → Option String)
    (st : ConcurrentSender H) (id : RequestId) (handlers : H)
    (result : Bytes) (w : String)
    (hl : mapLookup st.requests id = some handlers)
    (hthrow : doneRes handlers id result = some w) :
    (senderRequestDone doneRes st id result).2
        = [Event.invokeDone handlers id result,
           Event.invokeFail handlers id
             (rpcClientError "RESPONSE_PARSE_FAILED"
               (String.append "exception text: " w))]
    ∧ mapLookup (senderRequestDone doneRes st id result).1.requests id
        = none := by
  exact ⟨by simp [senderRequestDone, mapTake, hl, hthrow],
    by simp [senderRequestDone, mapTake, hl, hthrow, mapLookup_erase_self]⟩

theorem parse_failure_redirected_to_fail_witness :
    mapLookup sampleOne.requests 5 = some 9
    ∧ alwaysThrow 9 5 [1] = some "bad length"
    ∧ ((senderRequestDone alwaysThrow sampleOne 5 [1]).2
        = [Event.invokeDone 9 5 [1],
           Event.invokeFail 9 5
             (rpcClientError "RESPONSE_PARSE_FAILED"
               (String.append "exception text: " "bad length"))]
      ∧ mapLookup (senderRequestDone alwaysThrow sampleOne 5 [1]).1.requests 5
          = none) :=
  ⟨rfl, rfl,
    parse_failure_redirected_to_fail alwaysThrow sampleOne 5 9 [1]
      "bad length" rfl rfl⟩

/-- C7: provided every id in the mapping came from the strictly-increasing
generator (all keys at most the current counter), `send` allocates the fresh
id `counter + 1`, registers the handlers synchronously — the dispatcher
state at the moment `send` returns already maps the returned id to the
handlers — and returns that id while the engine hand-off closure is still
unexecuted scheduled data. -/
theorem send_registers_before_returning (b : RequestBuilder H)
    (counter : Nat) (st : ConcurrentSender H)
    (hfresh : ∀ p ∈ st.requests, p.1 ≤ counter) :
    (b.send counter st).requestId = counter + 1
    ∧ mapLookup (b.send counter st).sender.requests (counter + 1)
        = some b.handlers
    ∧ (b.send counter st).scheduled
        = [Event.engineSend (counter + 1) b.serialized b.dcId b.canWait
            b.afterRequestId] := by
  have habs : mapLookup st.requests (counter + 1) = none := by
    refine mapLookup_none_of_ne st.requests (counter + 1) ?_
    intro p hp
    exact Nat.ne_of_lt (Nat.lt_succ_of_le (hfresh p hp))
  refine ⟨rfl, ?_, rfl⟩
  simpa [RequestBuilder.send, GetNextRequestId, senderRequestRegister] using
    mapLookup_emplace_self_of_none st.requests (counter + 1) b.handlers habs

theorem send_registers_before_returning_witness :
    (∀ p ∈ sampleOne.requests, p.1 ≤ 5)
    ∧ ((RequestBuilder.send ⟨[9, 9], 77, 2, 30000, FailSkipPolicy.Simple, 0⟩
          5 sampleOne).requestId = 5 + 1
      ∧ mapLookup (RequestBuilder.send
          ⟨[9, 9], 77, 2, 30000, FailSkipPolicy.Simple, 0⟩
          5 sampleOne).sender.requests (5 + 1) = some 77
      ∧ (RequestBuilder.send ⟨[9, 9], 77, 2, 30000, FailSkipPolicy.Simple, 0⟩
          5 sampleOne).scheduled
          = [Event.engineSend (5 + 1) [9, 9] 2 30000 0]) :=
  ⟨by decide,
    send_registers_before_returning
      ⟨[9, 9], 77, 2, 30000, FailSkipPolicy.Simple, 0⟩ 5 sampleOne
      (by decide)⟩

/-- C1: evaluating `senderRequestCancelAll` on a dispatcher with exactly one
pending request (id 5) shows that the mapping is cleared but TWO engine
cancel notifications are issued — a spurious `cancel(0)` coming from the
zero-filled size-constructed `std::vector` plus the intended `cancel(5)` —
whereas one per pending id (exactly one here) is claimed. -/
theorem cancelAll_emits_spurious_zero_cancels :
    (senderRequestCancelAll sampleOne).2
        = [Event.engineCancel 0, Event.engineCancel 5]
    ∧ (senderRequestCancelAll sampleOne).1.requests = []
    ∧ (senderRequestCancelAll sampleOne).2.length ≠ 1 := by
  exact ⟨rfl, rfl, by decide⟩

/-- C9: the destructor (which runs `senderRequestCancelAll`) issues an
engine-cancel notification for every still-pending id, and after the
dispatcher is destroyed the weak reference inside both adapters'
continuations yields nothing, so neither `done` nor `fail` handlers ever
fire on any later delivery. -/
theorem destroyed_sender_never_invokes_handlers
    (doneRes : H → RequestId → Bytes → Option String)
    (st : ConcurrentSender H) (id : RequestId)
    (hid : id ∈ st.requests.map Prod.fst) (bytes : Bytes)
    (error : RPCError) :
    Event.engineCancel id ∈ destructConcurrentSender st
    ∧ rpcDoneContinuation doneRes none id bytes = (none, [])
    ∧ rpcFailContinuation (none : Option (ConcurrentSender H)) id error
        = (none, []) := by
  refine ⟨?_, rfl, rfl⟩
  have hmem : Event.engineCancel id
      ∈ (st.requests.map Prod.fst).map (Event.engineCancel (H := H)) :=
    List.mem_map_of_mem _ hid
  simp only [destructConcurrentSender, senderRequestCancelAll,
    List.map_append, List.mem_append]
  exact Or.inr hmem

theorem destroyed_sender_never_invokes_handlers_witness :
    (2 : RequestId) ∈ sampleTwo.requests.map Prod.fst
    ∧ (Event.engineCancel 2 ∈ destructConcurrentSender sampleTwo
      ∧ rpcDoneContinuation noThrow none 2 [4] = (none, [])
      ∧ rpcFailContinuation (none : Option (ConcurrentSender Nat)) 2
          ⟨"INTERNAL", "late"⟩ = (none, [])) :=
  ⟨by decide,
    destroyed_sender_never_invokes_handlers noThrow sampleTwo 2 (by decide)
      [4] ⟨"INTERNAL", "late"⟩⟩

/-- C2: across any sequence of `done`/`fail`/`cancel`/`cancelAll`/`detach`
operations containing no re-registration of the id, the handlers stored for
that id are invoked by at most one operation (the one that first removes the
mapping entry); and once the id is absent from the mapping, no operation of
the sequence invokes any handler for it. -/
theorem handlerPair_invoked_at_most_once
    (doneRes : H → RequestId → Bytes → Option String)
    (st : ConcurrentSender H) (ops : List (SenderOp H)) (id : RequestId)
    (hreg : ops.all (fun op => !(op.registersId id)) = true) :
    ((runOps doneRes st ops).2.countP
        (fun evs => evs.any (Event.isHandlerFor id))) ≤ 1
    ∧ (mapLookup st.requests id = none →
        ((runOps doneRes st ops).2.countP
            (fun evs => evs.any (Event.isHandlerFor id))) = 0) :=
  ⟨runOps_countP_le_one doneRes id ops st hreg,
   fun habs => runOps_absent doneRes id ops st hreg habs⟩

theorem handlerPair_invoked_at_most_once_witness :
    (sampleOps.all (fun op => !(op.registersId 5))) = true
    ∧ (((runOps noThrow sampleOne sampleOps).2.countP
          (fun evs => evs.any (Event.isHandlerFor 5))) ≤ 1
      ∧ (mapLookup sampleOne.requests 5 = none →
          ((runOps noThrow sampleOne sampleOps).2.countP
              (fun evs => evs.any (Event.isHandlerFor 5))) = 0)) :=
  ⟨by rfl,
    handlerPair_invoked_at_most_once noThrow sampleOne sampleOps 5 (by rfl)⟩

end MTP
